import Mathlib

/-!
Shallow embedding of the review-relevance decision pipeline
(`src/server/agent.py`) and of the feature extraction, rule, heuristic,
LLM-judge and aggregation stages it wires together.

Conventions of the embedding:
* Python `dict`s of JSON data are association lists (`JsonDict`); `dict.get`
  is `jget` / `jgetD`.
* Python floats are modelled as `ℚ` (every confidence value the code builds
  is an exact multiple of 1/20, and the final `round(_, 2)` erases any
  binary-float noise at that granularity).
* The regexes in the source are all of the shape `\b<literal>\b` (with
  `re.IGNORECASE`) except for `URL_RE`; both shapes are embedded directly as
  executable searches over `List Char`.
* The LLM judge's network interaction is supplied as an explicit
  `InferenceOutcome` value; everything else is pure.
-/

/-- A JSON value, as produced by `json.loads` and carried around in the
Python `dict`s of the pipeline state. -/
inductive JVal where
  | null
  | bool (b : Bool)
  | str (s : String)
  | num (q : ℚ)
  | arr (elems : List JVal)
  | obj (fields : List (String × JVal))

/-- Python truthiness of a JSON value (`bool(v)`). -/
def JVal.truthy : JVal → Bool
  | .null => false
  | .bool b => b
  | .str s => !s.isEmpty
  | .num q => decide (q ≠ 0)
  | .arr l => !l.isEmpty
  | .obj l => !l.isEmpty

/-- A JSON object / Python dict with string keys (keys are unique in any
dict the runtime builds; lookup takes the first binding). -/
abbrev JsonDict := List (String × JVal)

/-- `d.get(k)` -/
def jget (d : JsonDict) (k : String) : Option JVal :=
  (d.find? (fun kv => kv.1 == k)).map (fun kv => kv.2)

/-- `d.get(k, dflt)` -/
def jgetD (d : JsonDict) (k : String) (dflt : JVal) : JVal :=
  (jget d k).getD dflt

/-- Python truthiness of `d.get(k)` (`None` is falsy). -/
def optTruthy (o : Option JVal) : Bool :=
  match o with
  | none => false
  | some v => v.truthy

/-!  Word-boundary literal search: the model of
`re.compile(r"\b" + term + r"\b", re.IGNORECASE).search(text)`
for a literal `term` (every term in the three term families is a literal;
`re.escape` only makes that explicit for the promo/irrelevant lists). -/

/-- A word character for `\b` (Python `\w`); the term lists and the
boundary-relevant context are ASCII, where `\w` is alphanumeric or `_`. -/
def isWordChar (c : Char) : Bool := c.isAlphanum || c == '_'

def optIsWord : Option Char → Bool
  | none => false
  | some c => isWordChar c

/-- `\b` holds between two (optional) characters iff exactly one side is a
word character; the ends of the string count as non-word. -/
def isBoundary (l r : Option Char) : Bool := optIsWord l != optIsWord r

/-- Case-insensitive equality of character lists (`re.IGNORECASE`). -/
def lcEq (a b : List Char) : Bool := a.map Char.toLower == b.map Char.toLower

/-- Python `str.strip()` (no argument): remove leading and trailing
whitespace. -/
def pyStrip (s : String) : String :=
  ⟨((s.data.dropWhile Char.isWhitespace).reverse.dropWhile Char.isWhitespace).reverse⟩

/-- Does `\b<pat>\b` match `text` at (character) position `i`? -/
def wbMatchAt (pat text : List Char) (i : Nat) : Bool :=
  let pre := text.take i
  let rest := text.drop i
  let mid := rest.take pat.length
  let post := rest.drop pat.length
  mid.length == pat.length && lcEq mid pat &&
    isBoundary pre.getLast? mid.head? && isBoundary mid.getLast? post.head?

/-- `re.compile(r"\b" + re.escape(term) + r"\b", re.IGNORECASE).search(text)`
as a boolean: some position of `text` carries a whole-word occurrence. -/
def wbSearch (term text : String) : Bool :=
  (List.range (text.data.length + 1)).any (wbMatchAt term.data text.data)

/-- `count_matches`: how many of the compiled patterns find a match. -/
def count_matches (terms : List String) (text : String) : Nat :=
  (terms.filter (fun t => wbSearch t text)).length

/-!  `URL_RE = re.compile(r"(https?://|www\.)\S+", re.IGNORECASE)` -/

/-- Python `\S`: not whitespace. -/
def isSpaceChar (c : Char) : Bool := c.isWhitespace

/-- Length of the alternation `(https?://|www\.)` matching at the head of
`l`, if any (the regex engine tries `https://`, then backtracks the
optional `s`, then tries `www.`). -/
def urlPrefixAt (l : List Char) : Option Nat :=
  if lcEq (l.take 8) "https://".data then some 8
  else if lcEq (l.take 7) "http://".data then some 7
  else if lcEq (l.take 4) "www.".data then some 4
  else none

/-- Length of the greedy `\S+` run at the head of `l`. -/
def nonSpaceRunLen (l : List Char) : Nat :=
  (l.takeWhile (fun c => !isSpaceChar c)).length

/-- `URL_RE.search(text)` as a boolean: a URL prefix followed by at least
one non-space character occurs somewhere in `text`. -/
def urlSearch (text : String) : Bool :=
  (List.range text.data.length).any (fun i =>
    match urlPrefixAt (text.data.drop i) with
    | some p => 0 < nonSpaceRunLen ((text.data.drop i).drop p)
    | none => false)

/-- `len(URL_RE.findall(text))`: non-overlapping leftmost matches, each
consuming its greedy `\S+` run.  The `Nat` fuel is an upper bound on the
number of scan steps (each step consumes at least one character). -/
def countUrlsAux : Nat → List Char → Nat
  | 0, _ => 0
  | _ + 1, [] => 0
  | fuel + 1, c :: rest =>
    match urlPrefixAt (c :: rest) with
    | some p =>
      let tail := (c :: rest).drop p
      let n := nonSpaceRunLen tail
      if 0 < n then 1 + countUrlsAux fuel (tail.drop n)
      else countUrlsAux fuel rest
    | none => countUrlsAux fuel rest

def countUrls (text : String) : Nat := countUrlsAux text.data.length text.data

/-!  The three term families (configuration data, verbatim from the source). -/

def PROMO_TERMS : List String :=
  ["sale", "discount", "% off", "percent off", "limited time", "limited offer",
   "promo code", "use code", "coupon", "deal", "offer", "book now", "call now",
   "subscribe", "follow us", "visit our website", "click here", "official website",
   "free trial", "sign up", "order now", "link in bio"]

def VISIT_MARKERS : List String :=
  ["i ", " we ", " my ", " our ", "me ", "us ", "i\x27m", "i’ve", "i was", "we were",
   "ordered", "ate", "drank", "menu", "dish", "coffee", "table", "queue", "waited",
   "staff", "service", "room", "counter", "cashier", "bill", "receipt", "ticket",
   "entrance", "parking", "restroom", "toilet", "seating", "reservation", "check in",
   "checked in", "checkout", "check-out", "walked", "sat", "stood", "line"]

/-- The visit-marker patterns are compiled from `term.strip()`. -/
def VISIT_PATTERNS : List String := VISIT_MARKERS.map pyStrip

def IRRELEVANT_HINTS : List String :=
  ["hiring", "vacancy", "job opening", "lost phone", "lost wallet", "crypto",
   "bitcoin", "forex", "giveaway", "telegram", "whatsapp", "contact me"]

/-!  Review records and feature extraction. -/

/-- One photo reference from a review's `pics` list: a JSON object of which
the pipeline reads the `"url"` key. -/
structure Pic where
  url : Option JVal := none

/-- A Review Record, with the fields the pipeline reads.  A field that is
absent from the incoming dict and a field that is JSON-`null` are
indistinguishable to the code (`dict.get`), so both are `none`.  `text` is
a string when present (data model of the spec); `time` may hold any JSON
value so that invalid timestamps are representable. -/
structure Review where
  text : Option String := none
  rating : Option JVal := none
  time : Option JVal := none
  pics : Option (List Pic) := none

/-- `str(x)` for the non-string entries of a `url` list.  The rendering is
never consumed downstream (only the number of extracted urls is), so
composite values are rendered by a constructor tag. -/
def pyStr : JVal → String
  | .null => "None"
  | .bool true => "True"
  | .bool false => "False"
  | .str s => s
  | .num q => toString q
  | .arr _ => "<list>"
  | .obj _ => "<dict>"

/-- `extract_pics`: gather url strings from the `pics` list; a list-valued
`url` is flattened through `str`, a string-valued `url` is kept, anything
else is skipped.  `review.get("pics") or []` turns an absent/null (or
empty) list into `[]`. -/
def extract_pics (review : Review) : List String :=
  let pics := review.pics.getD []
  pics.foldl
    (fun urls p =>
      match p.url with
      | some (.arr l) => urls ++ l.map pyStr
      | some (.str u) => urls ++ [u]
      | _ => urls)
    []

/-- Seconds of the smallest / largest timestamp `datetime.fromtimestamp`
accepts (0001-01-01T00:00:00Z and 9999-12-31T23:59:59.999999Z). -/
def MIN_TS : ℚ := -62135596800
def MAX_TS : ℚ := 253402300799

/-- A Python value that `ms / 1000.0` accepts: a number (including a bool,
which is an `int` in Python). -/
def numVal : JVal → Option ℚ
  | .num q => some q
  | .bool b => some (if b then 1 else 0)
  | _ => none

/-- Proleptic-Gregorian civil date from days since 1970-01-01 (floor
divisions throughout; `Int` division by a positive divisor floors). -/
def civilFromDays (z0 : Int) : Int × Int × Int :=
  let z := z0 + 719468
  let era : Int := z / 146097
  let doe : Int := z % 146097
  let yoe : Int := (doe - doe / 1460 + doe / 36524 - doe / 146096) / 365
  let y : Int := yoe + era * 400
  let doy : Int := doe - (365 * yoe + yoe / 4 - yoe / 100)
  let mp : Int := (5 * doy + 2) / 153
  let d : Int := doy - (153 * mp + 2) / 5 + 1
  let m : Int := if mp < 10 then mp + 3 else mp - 9
  (if m ≤ 2 then y + 1 else y, m, d)

def pad2 (n : Int) : String :=
  if n < 10 then "0" ++ toString n else toString n

def pad6 (n : Int) : String :=
  let s := toString n
  String.mk (List.replicate (6 - s.length) '0') ++ s

/-- ISO-8601 rendering of a millisecond timestamp.  `tz.tzlocal()` is
modelled as UTC (the local zone is environment data the code does not
control), and the float microsecond rounding as a floor; no caller of the
pipeline inspects this string beyond its presence. -/
def isoOfMs (q : ℚ) : String :=
  let us : Int := ⌊q * 1000⌋
  let s : Int := us / 1000000
  let frac : Int := us % 1000000
  let days : Int := s / 86400
  let sod : Int := s % 86400
  let ymd := civilFromDays days
  let hh := sod / 3600
  let mm := (sod % 3600) / 60
  let ss := sod % 60
  toString ymd.1 ++ "-" ++ pad2 ymd.2.1 ++ "-" ++ pad2 ymd.2.2 ++ "T" ++
    pad2 hh ++ ":" ++ pad2 mm ++ ":" ++ pad2 ss ++
    (if frac == 0 then "" else "." ++ pad6 frac) ++ "+00:00"

/-- `ms_to_date`: `None` stays `None`; a non-numeric value raises a
`TypeError` at `ms / 1000.0` and an out-of-range number overflows
`datetime.fromtimestamp` — both are caught by the bare `except` and yield
`None`; otherwise the timestamp is rendered as an ISO-8601 string. -/
def ms_to_date (v : Option JVal) : Option String :=
  match v with
  | none => none
  | some jv =>
    match numVal jv with
    | none => none
    | some q =>
      if MIN_TS * 1000 ≤ q ∧ q < (MAX_TS + 1) * 1000 then some (isoOfMs q)
      else none

/-- The Feature Bundle (`state["features"]`). -/
structure Features where
  text_len : Nat
  has_url : Bool
  url_count : Nat
  promo_keywords_found : List String
  irrelevant_hints_found : List String
  has_pics : Bool
  pics_count : Nat
  visit_markers_count : Nat
  likely_visited : Bool
  rating : Option JVal
  date_iso : Option String

/-- `extract_features` (the body that fills `state["features"]` from
`state["review"]`); `(review.get("text") or "").strip()` is
`pyStrip (review.text.getD "")` — an absent, null or empty text yields `""`
either way. -/
def extract_features (review : Review) : Features :=
  let text := pyStrip (review.text.getD "")
  let pics_urls := extract_pics review
  let visit_markers_count := count_matches VISIT_PATTERNS (" " ++ text ++ " ")
  let has_pics := decide (0 < pics_urls.length)
  { text_len := text.length
    has_url := urlSearch text
    url_count := countUrls text
    promo_keywords_found := PROMO_TERMS.filter (fun t => wbSearch t text)
    irrelevant_hints_found := IRRELEVANT_HINTS.filter (fun t => wbSearch t text)
    has_pics := has_pics
    pics_count := pics_urls.length
    visit_markers_count := visit_markers_count
    likely_visited := has_pics || decide (2 ≤ visit_markers_count)
    rating := review.rating
    date_iso := ms_to_date review.time }

/-!  Pipeline state and the five graph nodes. -/

/-- The `Literal["relevant", "not_relevant"]` decisions. -/
inductive Decision where
  | relevant
  | not_relevant
deriving DecidableEq

/-- `ReviewState` after feature extraction (`TypedDict, total=False`:
every later field starts out absent). -/
structure PipeState where
  features : Features
  rule_decision : Option Decision := none
  rule_reason : Option String := none
  llm_vote : Option JsonDict := none
  final_decision : Option Decision := none
  explanation : Option JVal := none
  confidence : Option ℚ := none

/-- The reason string `rule_filter` assembles when it fires. -/
def mkRuleReason (f : Features) : String :=
  let reasons :=
    (if f.has_url then ["contains web link"] else []) ++
    (if f.promo_keywords_found.isEmpty then []
     else ["promotional terms: " ++ String.intercalate ", " f.promo_keywords_found])
  "Likely advertisement (" ++ String.intercalate "; " reasons ++ ")."

/-- Node 2, `rule_filter`: fast rejection on ad signals. -/
def rule_filter (s : PipeState) : PipeState :=
  let f := s.features
  if f.has_url || !f.promo_keywords_found.isEmpty then
    { s with rule_decision := some .not_relevant, rule_reason := some (mkRuleReason f) }
  else
    { s with rule_decision := none, rule_reason := none }

/-- The two labels of the conditional edges. -/
inductive NextStep where
  | early_exit
  | continue_step
deriving DecidableEq

/-- `rule_filter_next`: early exit iff a (truthy) decision was recorded. -/
def rule_filter_next (s : PipeState) : NextStep :=
  if s.rule_decision.isSome then .early_exit else .continue_step

/-- Node 3, `heuristics_positive`: fast acceptance on photos without ad
signals. -/
def heuristics_positive (s : PipeState) : PipeState :=
  let f := s.features
  if f.has_pics && !f.has_url && f.promo_keywords_found.isEmpty then
    { s with rule_decision := some .relevant,
             rule_reason := some "Has photos and no ad signals." }
  else
    { s with rule_decision := none, rule_reason := none }

/-- `heuristics_next`: same branch test as `rule_filter_next`. -/
def heuristics_next (s : PipeState) : NextStep :=
  if s.rule_decision.isSome then .early_exit else .continue_step

/-!  Node 4, `llm_judge`.  The network call (`client.chat_completion`) and
the parse of its content are the only effectful steps in the pipeline;
their result is supplied as an `InferenceOutcome`. -/

/-- What the inference call came back with: a timeout, a transport error,
or a response body — the latter either parses as a JSON object
(`json.loads` succeeds) or not. -/
inductive InferenceOutcome where
  | timeout
  | transport
  | content (parsed : Option JsonDict)

/-- The exception that escapes `llm_judge`, by kind: the client's timeout
error, any other transport error, or `json.JSONDecodeError`.  `llm_judge`
installs no handler, so each propagates to the caller as-is. -/
inductive JudgeError where
  | timeout
  | transport
  | jsonDecode
deriving DecidableEq

/-- Node 4 as a fallible step: on a successful parse the raw dict is stored
as `llm_vote`; every failure propagates.  Note there is no validation of
the parsed dict against the `PolicyJudgement` schema. -/
def llm_judge (outcome : InferenceOutcome) (s : PipeState) : Except JudgeError PipeState :=
  match outcome with
  | .timeout => .error .timeout
  | .transport => .error .transport
  | .content none => .error .jsonDecode
  | .content (some d) => .ok { s with llm_vote := some d }

/-- The set of values `PolicyJudgement.visited` admits. -/
def visitedValues : List String := ["yes", "probably", "unclear", "no"]

/-- Conformance of a parsed dict to the `PolicyJudgement` schema: all six
required fields present with their declared types. -/
def schemaValid (d : JsonDict) : Bool :=
  (match jget d "advertisement" with | some (.bool _) => true | _ => false) &&
  (match jget d "irrelevant" with | some (.bool _) => true | _ => false) &&
  (match jget d "rant_without_visit" with | some (.bool _) => true | _ => false) &&
  (match jget d "visited" with | some (.str s) => visitedValues.contains s | _ => false) &&
  (match jget d "relevant" with | some (.bool _) => true | _ => false) &&
  (match jget d "reasoning" with | some (.str _) => true | _ => false)

/-!  Node 5, `aggregate`. -/

/-- Python's `round` to the nearest integer, half to even. -/
def roundHalfEven (q : ℚ) : Int :=
  let f := ⌊q⌋
  let r := q - f
  if r < 1/2 then f
  else if 1/2 < r then f + 1
  else if f % 2 = 0 then f else f + 1

/-- `round(q, 2)`. -/
def round2 (q : ℚ) : ℚ := (roundHalfEven (q * 100) : ℚ) / 100

/-- The LLM-path confidence computation inside `aggregate`:
`max(0.5, 0.9 - 0.1 * penalties)`, `+ 0.05` for a confirmed visit,
`round(min(conf, 0.95), 2)`. -/
def llmConfidence (vote : JsonDict) : ℚ :=
  let penalties : ℚ :=
    (if optTruthy (jget vote "advertisement") then 1 else 0) +
    (if optTruthy (jget vote "irrelevant") then 1 else 0) +
    (if optTruthy (jget vote "rant_without_visit") then 1 else 0)
  let conf := max (1/2) (9/10 - 1/10 * penalties)
  let visitedOk :=
    match jget vote "visited" with
    | some (.str s) => s == "yes" || s == "probably"
    | _ => false
  let conf := if visitedOk then conf + 1/20 else conf
  round2 (min conf (19/20))

/-- Node 5, `aggregate`: a truthy `rule_decision` wins outright (the LLM
vote is not consulted); otherwise the vote dict — `{}` when absent or
empty (`state.get("llm_vote") or {}`) — drives decision, confidence and
explanation. -/
def aggregate (s : PipeState) : PipeState :=
  match s.rule_decision with
  | some d =>
    let reason :=
      match s.rule_reason with
      | some r => if r.isEmpty then "Early decision by rules." else r
      | none => "Early decision by rules."
    { s with final_decision := some d,
             explanation := some (.str reason),
             confidence := some (if d = .not_relevant then 9/10 else 4/5) }
  | none =>
    let vote := s.llm_vote.getD []
    let rel := (jgetD vote "relevant" (.bool false)).truthy
    { s with final_decision := some (if rel then .relevant else .not_relevant),
             confidence := some (llmConfidence vote),
             explanation := some ((jget vote "reasoning").getD (.str "Combined decision.")) }

/-- `build_graph().invoke({"review": review})`: extract, rule stage with
conditional edge, heuristic stage with conditional edge, judge, aggregate.
A judge error aborts the invocation before `aggregate`. -/
def run_graph (outcome : InferenceOutcome) (review : Review) : Except JudgeError PipeState :=
  let s1 : PipeState := { features := extract_features review }
  let s2 := rule_filter s1
  match rule_filter_next s2 with
  | .early_exit => .ok (aggregate s2)
  | .continue_step =>
    let s3 := heuristics_positive s2
    match heuristics_next s3 with
    | .early_exit => .ok (aggregate s3)
    | .continue_step =>
      match llm_judge outcome s3 with
      | .error e => .error e
      | .ok s4 => .ok (aggregate s4)

/-!  Spec-side definitions (for the refinement-style claims). -/

/-- Spec side of the matching contract: `term` occurs in `text` as a whole
word/phrase — case-insensitively equal to a contiguous slice whose two ends
sit on word boundaries. -/
def WholeWordOccurrence (term text : String) : Prop :=
  ∃ pre mid post : List Char,
    text.data = pre ++ mid ++ post ∧
    mid.map Char.toLower = term.data.map Char.toLower ∧
    isBoundary pre.getLast? mid.head? = true ∧
    isBoundary mid.getLast? post.head? = true

/-!  Helper: substring containment, for "the reason lists the signals". -/

/-- `sub` occurs contiguously inside `s`. -/
def ContainsSub (sub s : String) : Prop :=
  ∃ a b : String, s = a ++ sub ++ b

/-!  Concrete sample data (used by witnesses and counterexamples). -/

def featNoSignals : Features :=
  { text_len := 2, has_url := false, url_count := 0, promo_keywords_found := [],
    irrelevant_hints_found := [], has_pics := false, pics_count := 0,
    visit_markers_count := 0, likely_visited := false, rating := none, date_iso := none }

def featPics : Features := { featNoSignals with has_pics := true, pics_count := 1 }

def reviewAd : Review :=
  { text := some "Use code SAVE20 at checkout! www.example.com", pics := some [] }

def reviewWithPics : Review :=
  { text := some "ok", pics := some [{ url := some (.str "http://img/1.jpg") }] }

def reviewPlain : Review := { text := some "The food was mediocre." }

/-- The state after the Rule Stage, on the compiled graph's path. -/
def stage2 (r : Review) : PipeState := rule_filter { features := extract_features r }

/-- The state after the Heuristic Stage (reached only when the Rule Stage
was undetermined). -/
def stage3 (r : Review) : PipeState := heuristics_positive (stage2 r)

/-- Spec-side: the number of true policy flags in a judgement. -/
def penaltyCount (vote : JsonDict) : Nat :=
  (if optTruthy (jget vote "advertisement") then 1 else 0) +
  (if optTruthy (jget vote "irrelevant") then 1 else 0) +
  (if optTruthy (jget vote "rant_without_visit") then 1 else 0)

/-- Spec-side: the judgement's `visited` field is `yes` or `probably`. -/
def visitedConfirmed (vote : JsonDict) : Bool :=
  match jget vote "visited" with
  | some (.str s) => s == "yes" || s == "probably"
  | _ => false

/-- The eight confidence values the LLM path can produce. -/
def CONF_VALUES : List ℚ := [3/5, 13/20, 7/10, 3/4, 4/5, 17/20, 9/10, 19/20]

/-- The spec's scenario judgement: `relevant` true, all three flags false,
`visited = "yes"`. -/
def voteGood : JsonDict :=
  [("relevant", .bool true), ("advertisement", .bool false),
   ("irrelevant", .bool false), ("rant_without_visit", .bool false),
   ("visited", .str "yes"), ("reasoning", .str "ok")]

/-- Case-mapped text (`text.upper()` / `text.lower()` of Python, ASCII). -/
def upperStr (s : String) : String := ⟨s.data.map Char.toUpper⟩

def lowerStr (s : String) : String := ⟨s.data.map Char.toLower⟩

/-!  Sanity checks of the matcher embedding. -/

example : wbSearch "call now" "recall nowhere" = false := by decide
example : wbSearch "call now" "please CALL NOW ok" = true := by decide
example : wbSearch "deal" "dealer" = false := by decide
example : urlSearch "see www.example.com now" = true := by decide
example : urlSearch "www. " = false := by decide
example : countUrls "x www.a.com and http://b.c" = 2 := by decide

theorem ContainsSub.refl (s : String) : ContainsSub s s :=
  ⟨"", "", by simp [String.empty_append, String.append_empty]⟩

theorem ContainsSub.app_left {sub t : String} (s : String) (h : ContainsSub sub t) :
    ContainsSub sub (s ++ t) := by
  obtain ⟨a, b, rfl⟩ := h
  exact ⟨s ++ a, b, by simp [String.append_assoc]⟩

theorem ContainsSub.app_right {sub t : String} (s : String) (h : ContainsSub sub t) :
    ContainsSub sub (t ++ s) := by
  obtain ⟨a, b, rfl⟩ := h
  exact ⟨a, b ++ s, by simp [String.append_assoc]⟩

theorem intercalate_go_split (sep : String) :
    ∀ (as : List String) (acc : String),
      ∃ r : String, String.intercalate.go acc sep as = acc ++ r := by
  intro as
  induction as with
  | nil =>
    intro acc
    exact ⟨"", by simp [String.intercalate.go, String.append_empty]⟩
  | cons a as ih =>
    intro acc
    obtain ⟨r, hr⟩ := ih (acc ++ sep ++ a)
    refine ⟨sep ++ a ++ r, ?_⟩
    show String.intercalate.go (acc ++ sep ++ a) sep as = acc ++ (sep ++ a ++ r)
    rw [hr]
    simp [String.append_assoc]

theorem intercalate_go_mem (sep : String) :
    ∀ (as : List String) (acc t : String),
      (ContainsSub t acc ∨ t ∈ as) →
      ContainsSub t (String.intercalate.go acc sep as) := by
  intro as
  induction as with
  | nil =>
    intro acc t h
    rcases h with h | h
    · simpa [String.intercalate.go] using h
    · cases h
  | cons a as ih =>
    intro acc t h
    show ContainsSub t (String.intercalate.go (acc ++ sep ++ a) sep as)
    rcases h with h | h
    · exact ih _ t (Or.inl ((h.app_right sep).app_right a))
    · rcases List.mem_cons.mp h with rfl | h
      · exact ih _ t (Or.inl ((ContainsSub.refl t).app_left (acc ++ sep)))
      · exact ih _ t (Or.inr h)

/-- Every element of `l` occurs inside `String.intercalate sep l`. -/
theorem intercalate_mem_containsSub (sep : String) (l : List String) (t : String)
    (h : t ∈ l) : ContainsSub t (String.intercalate sep l) := by
  cases l with
  | nil => cases h
  | cons a as =>
    show ContainsSub t (String.intercalate.go a sep as)
    rcases List.mem_cons.mp h with rfl | h
    · exact intercalate_go_mem sep as t t (Or.inl (ContainsSub.refl t))
    · exact intercalate_go_mem sep as a t (Or.inr h)

/-- When `rule_filter` fires, its reason mentions the web link iff a url
was seen, and mentions every promotional term found. -/
theorem mkRuleReason_lists_signals (f : Features) :
    (f.has_url = true → ContainsSub "contains web link" (mkRuleReason f)) ∧
    (∀ t ∈ f.promo_keywords_found, ContainsSub t (mkRuleReason f)) := by
  unfold mkRuleReason
  constructor
  · intro hu
    apply ContainsSub.app_right
    apply ContainsSub.app_left
    apply intercalate_mem_containsSub
    simp [hu]
  · intro t ht
    apply ContainsSub.app_right
    apply ContainsSub.app_left
    have hne : f.promo_keywords_found.isEmpty = false := by
      cases hpk : f.promo_keywords_found with
      | nil => rw [hpk] at ht; cases ht
      | cons x xs => simp [hpk]
    have hmem : ("promotional terms: " ++ String.intercalate ", " f.promo_keywords_found) ∈
        ((if f.has_url then ["contains web link"] else []) ++
         (if f.promo_keywords_found.isEmpty then []
          else ["promotional terms: " ++ String.intercalate ", " f.promo_keywords_found])) := by
      simp [hne]
    have h1 : ContainsSub t ("promotional terms: " ++ String.intercalate ", " f.promo_keywords_found) :=
      (intercalate_mem_containsSub ", " _ t ht).app_left _
    obtain ⟨a, b, hab⟩ := intercalate_mem_containsSub "; " _ _ hmem
    obtain ⟨c, d, hcd⟩ := h1
    exact ⟨a ++ c, d ++ b, by rw [hab, hcd]; simp [String.append_assoc]⟩

/-!  C2: the Rule Stage. -/

/-- C2: for every Feature Bundle the Rule Stage decides `not_relevant`
exactly when `has_url` is true or `promo_keywords_found` is non-empty, with
a reason listing the fired signals (the web link and/or each matched
promotional term); otherwise both decision and reason stay unset
(`undetermined`), and the stage never returns `relevant`.  In particular a
review whose extracted features carry a URL is always rejected. -/
theorem rule_stage_decision (s : PipeState) (review : Review) :
    ((rule_filter s).rule_decision = some Decision.not_relevant ↔
      (s.features.has_url = true ∨ s.features.promo_keywords_found ≠ [])) ∧
    ((rule_filter s).rule_decision ≠ some Decision.relevant) ∧
    (s.features.has_url = false → s.features.promo_keywords_found = [] →
      (rule_filter s).rule_decision = none ∧ (rule_filter s).rule_reason = none) ∧
    ((s.features.has_url = true ∨ s.features.promo_keywords_found ≠ []) →
      (rule_filter s).rule_reason = some (mkRuleReason s.features) ∧
      (s.features.has_url = true → ContainsSub "contains web link" (mkRuleReason s.features)) ∧
      (∀ t ∈ s.features.promo_keywords_found, ContainsSub t (mkRuleReason s.features))) ∧
    ((extract_features review).has_url = true →
      (rule_filter { features := extract_features review }).rule_decision =
        some Decision.not_relevant) := by
  have hlast : (extract_features review).has_url = true →
      (rule_filter { features := extract_features review }).rule_decision =
        some Decision.not_relevant := by
    intro hu
    simp [rule_filter, hu]
  cases hb : (s.features.has_url || !s.features.promo_keywords_found.isEmpty) with
  | true =>
    have hcond : s.features.has_url = true ∨ s.features.promo_keywords_found ≠ [] := by
      cases hu : s.features.has_url with
      | true => exact Or.inl rfl
      | false =>
        refine Or.inr ?_
        rw [hu] at hb
        simpa using hb
    refine ⟨?_, ?_, ?_, ?_, hlast⟩
    · simp [rule_filter, hb, hcond]
    · simp [rule_filter, hb]
    · intro hu hp
      exfalso
      rcases hcond with h' | h'
      · rw [hu] at h'; cases h'
      · exact h' hp
    · intro _
      exact ⟨by simp [rule_filter, hb],
        (mkRuleReason_lists_signals s.features).1,
        (mkRuleReason_lists_signals s.features).2⟩
  | false =>
    have hu : s.features.has_url = false := by
      cases hu : s.features.has_url with
      | false => rfl
      | true => rw [hu] at hb; simp at hb
    have hp : s.features.promo_keywords_found = [] := by
      rw [hu] at hb
      simpa using hb
    refine ⟨?_, ?_, ?_, ?_, hlast⟩
    · simp only [rule_filter, hb]
      constructor
      · intro hc; simp at hc
      · intro hc
        rcases hc with hc | hc
        · rw [hu] at hc; cases hc
        · exact absurd hp hc
    · simp [rule_filter, hb]
    · intro _ _
      constructor <;> simp [rule_filter, hb]
    · intro hc
      exfalso
      rcases hc with hc | hc
      · rw [hu] at hc; cases hc
      · exact hc hp

/-- C2 witness: the promo/url scenario review is rejected by the Rule
Stage. -/
theorem rule_stage_decision_witness :
    (rule_filter { features := extract_features reviewAd }).rule_decision =
      some Decision.not_relevant :=
  (rule_stage_decision { features := extract_features reviewAd } reviewAd).2.2.2.2
    (by decide)

/-!  C3: the Heuristic Stage. -/

/-- C3 counterexample: the Heuristic Stage does fire on photos without ad
signals, but the reason it carries is `"Has photos and no ad signals."`,
not the claim's `"has photographic evidence and no advertisement
signals."`. -/
theorem heuristic_reason_counterexample :
    (heuristics_positive { features := featPics }).rule_decision = some Decision.relevant ∧
    (heuristics_positive { features := featPics }).rule_reason ≠
      some "has photographic evidence and no advertisement signals." := by
  constructor
  · decide
  · decide

/-- C3 (amended): the Heuristic Stage returns `relevant` exactly when
`has_pics` is true, `has_url` is false and `promo_keywords_found` is empty,
carrying the reason `"Has photos and no ad signals."`; otherwise decision
and reason stay unset (`undetermined`).  Thus every review with at least
one extracted photo and zero ad signals is accepted by this stage. -/
theorem heuristic_stage_decision (s : PipeState) (review : Review) :
    ((heuristics_positive s).rule_decision = some Decision.relevant ↔
      (s.features.has_pics = true ∧ s.features.has_url = false ∧
        s.features.promo_keywords_found = [])) ∧
    ((heuristics_positive s).rule_decision = some Decision.relevant →
      (heuristics_positive s).rule_reason = some "Has photos and no ad signals.") ∧
    (¬ (s.features.has_pics = true ∧ s.features.has_url = false ∧
        s.features.promo_keywords_found = []) →
      (heuristics_positive s).rule_decision = none ∧
      (heuristics_positive s).rule_reason = none) ∧
    ((extract_features review).has_pics = true →
     (extract_features review).has_url = false →
     (extract_features review).promo_keywords_found = [] →
      (heuristics_positive { features := extract_features review }).rule_decision =
        some Decision.relevant) := by
  have hlast : (extract_features review).has_pics = true →
      (extract_features review).has_url = false →
      (extract_features review).promo_keywords_found = [] →
      (heuristics_positive { features := extract_features review }).rule_decision =
        some Decision.relevant := by
    intro h1 h2 h3
    simp [heuristics_positive, h1, h2, h3]
  cases hb : (s.features.has_pics && !s.features.has_url &&
      s.features.promo_keywords_found.isEmpty) with
  | true =>
    have hcond : s.features.has_pics = true ∧ s.features.has_url = false ∧
        s.features.promo_keywords_found = [] := by
      cases hp : s.features.has_pics <;> cases hu : s.features.has_url <;>
        cases hk : s.features.promo_keywords_found <;>
          rw [hp, hu, hk] at hb <;> simp_all
    refine ⟨?_, ?_, ?_, hlast⟩
    · simp [heuristics_positive, hb, hcond]
    · intro _
      simp [heuristics_positive, hb]
    · intro hc
      exact absurd hcond hc
  | false =>
    have hcond : ¬ (s.features.has_pics = true ∧ s.features.has_url = false ∧
        s.features.promo_keywords_found = []) := by
      intro ⟨h1, h2, h3⟩
      rw [h1, h2, h3] at hb
      simp at hb
    refine ⟨?_, ?_, ?_, hlast⟩
    · simp only [heuristics_positive, hb]
      constructor
      · intro hc; simp at hc
      · intro hc; exact absurd hc hcond
    · simp [heuristics_positive, hb]
    · intro _
      constructor <;> simp [heuristics_positive, hb]

/-- C3 witness: the photo scenario review is accepted by the Heuristic
Stage. -/
theorem heuristic_stage_decision_witness :
    (heuristics_positive { features := extract_features reviewWithPics }).rule_decision =
      some Decision.relevant :=
  (heuristic_stage_decision { features := extract_features reviewWithPics }
    reviewWithPics).2.2.2 (by decide) (by decide) (by decide)

/-!  Pipeline composition helpers and aggregate facts. -/

theorem rule_filter_llm_vote (s : PipeState) : (rule_filter s).llm_vote = s.llm_vote := by
  unfold rule_filter
  dsimp only
  split <;> rfl

theorem heuristics_positive_llm_vote (s : PipeState) :
    (heuristics_positive s).llm_vote = s.llm_vote := by
  unfold heuristics_positive
  dsimp only
  split <;> rfl

/-- Both fast stages leave `llm_vote` alone, so on the graph's paths it is
still absent when `aggregate` runs after an early exit. -/
theorem stage3_llm_vote_none (r : Review) : (stage3 r).llm_vote = none := by
  unfold stage3 stage2
  rw [heuristics_positive_llm_vote, rule_filter_llm_vote]

theorem stage2_llm_vote_none (r : Review) : (stage2 r).llm_vote = none := by
  unfold stage2
  rw [rule_filter_llm_vote]

theorem run_graph_rule_exit (o : InferenceOutcome) (r : Review)
    (h : (stage2 r).rule_decision.isSome = true) :
    run_graph o r = .ok (aggregate (stage2 r)) := by
  unfold stage2 at h ⊢
  unfold run_graph rule_filter_next
  dsimp only
  rw [if_pos h]

theorem run_graph_heur_exit (o : InferenceOutcome) (r : Review)
    (h2 : (stage2 r).rule_decision = none) (h3 : (stage3 r).rule_decision.isSome = true) :
    run_graph o r = .ok (aggregate (stage3 r)) := by
  unfold stage3 at h3 ⊢
  unfold stage2 at h2 h3 ⊢
  unfold run_graph rule_filter_next heuristics_next
  dsimp only
  rw [if_neg (by rw [h2]; simp), if_pos h3]

theorem run_graph_llm (o : InferenceOutcome) (r : Review)
    (h2 : (stage2 r).rule_decision = none) (h3 : (stage3 r).rule_decision = none) :
    run_graph o r = (llm_judge o (stage3 r)).map aggregate := by
  unfold stage3 at h3 ⊢
  unfold stage2 at h2 h3 ⊢
  unfold run_graph rule_filter_next heuristics_next
  dsimp only
  rw [if_neg (by rw [h2]; simp), if_neg (by rw [h3]; simp)]
  cases o with
  | timeout => rfl
  | transport => rfl
  | content p => cases p <;> rfl

/-- On a truthy fast-stage decision, `aggregate` copies that decision, uses
the fixed fast-path confidences, and leaves `llm_vote` untouched. -/
theorem aggregate_fast (s : PipeState) (d : Decision) (h : s.rule_decision = some d) :
    (aggregate s).final_decision = some d ∧
    (aggregate s).confidence = some (if d = .not_relevant then 9/10 else 4/5) ∧
    (aggregate s).llm_vote = s.llm_vote := by
  simp [aggregate, h]

/-- With no fast-stage decision, `aggregate` follows the vote dict. -/
theorem aggregate_llm_vote (s : PipeState) (h : s.rule_decision = none) :
    (aggregate s).final_decision =
      some (if (jgetD (s.llm_vote.getD []) "relevant" (.bool false)).truthy
            then Decision.relevant else Decision.not_relevant) ∧
    (aggregate s).confidence = some (llmConfidence (s.llm_vote.getD [])) ∧
    (aggregate s).llm_vote = s.llm_vote := by
  simp [aggregate, h]

/-!  Numeric facts about the confidence computation. -/

theorem roundHalfEven_intCast (n : ℤ) : roundHalfEven (n : ℚ) = n := by
  unfold roundHalfEven
  rw [Int.floor_intCast]
  norm_num

theorem round2_cent (n : ℤ) : round2 ((n : ℚ) / 100) = (n : ℚ) / 100 := by
  unfold round2
  rw [div_mul_cancel₀ _ (by norm_num : (100 : ℚ) ≠ 0), roundHalfEven_intCast]

/-- The LLM-path confidence, written as the spec phrases it: start at 0.9,
subtract 0.1 per true flag, floor at 0.5, add 0.05 on a confirmed visit,
cap at 0.95, round to two decimals. -/
theorem llmConfidence_formula (vote : JsonDict) :
    llmConfidence vote =
      round2 (min (max (1/2) (9/10 - (penaltyCount vote : ℚ) / 10) +
        (if visitedConfirmed vote then 1/20 else 0)) (19/20)) := by
  unfold llmConfidence penaltyCount visitedConfirmed
  dsimp only
  cases h1 : optTruthy (jget vote "advertisement") <;>
    cases h2 : optTruthy (jget vote "irrelevant") <;>
      cases h3 : optTruthy (jget vote "rant_without_visit") <;>
        cases hv : (match jget vote "visited" with
          | some (.str s) => s == "yes" || s == "probably"
          | _ => false) <;>
          · norm_num [h1, h2, h3, hv]

theorem penaltyCount_le_three (vote : JsonDict) : penaltyCount vote ≤ 3 := by
  unfold penaltyCount
  split_ifs <;> norm_num

theorem conf_values_bounds : ∀ c ∈ CONF_VALUES, (3:ℚ)/5 ≤ c ∧ c ≤ 19/20 := by
  intro c hc
  fin_cases hc <;> norm_num

theorem llmConfidence_mem (vote : JsonDict) : llmConfidence vote ∈ CONF_VALUES := by
  rw [llmConfidence_formula]
  have hp := penaltyCount_le_three vote
  set p := penaltyCount vote with hpdef
  clear_value p
  cases hb : visitedConfirmed vote <;> interval_cases p <;>
    norm_num [CONF_VALUES, min_def, max_def, round2, roundHalfEven]

/-!  C10: the Aggregator on an empty state. -/

/-- C10: invoked standalone with no fast-stage decision and an absent or
empty LLM vote, `aggregate` does not fail: it manufactures the default
verdict `not_relevant` with confidence 0.9 and explanation
`"Combined decision."` from the empty Policy Judgement. -/
theorem aggregate_default_verdict (s : PipeState)
    (hrule : s.rule_decision = none)
    (hvote : s.llm_vote = none ∨ s.llm_vote = some []) :
    (aggregate s).final_decision = some Decision.not_relevant ∧
    (aggregate s).confidence = some (9/10) ∧
    (aggregate s).explanation = some (.str "Combined decision.") := by
  have hv : s.llm_vote.getD [] = [] := by
    rcases hvote with h | h <;> simp [h]
  obtain ⟨hfin, hconf, _⟩ := aggregate_llm_vote s hrule
  refine ⟨?_, ?_, ?_⟩
  · rw [hfin, hv]
    decide
  · rw [hconf, hv]
    have : llmConfidence [] = 9/10 := by
      rw [llmConfidence_formula]
      norm_num [penaltyCount, visitedConfirmed, jget, optTruthy, min_def, max_def,
        round2, roundHalfEven]
    rw [this]
  · simp [aggregate, hrule, hv, jget]

/-- C10 witness: a fresh state (every optional field absent) yields the
default verdict. -/
theorem aggregate_default_verdict_witness :
    (aggregate { features := featNoSignals }).final_decision = some Decision.not_relevant ∧
    (aggregate { features := featNoSignals }).confidence = some (9/10) ∧
    (aggregate { features := featNoSignals }).explanation =
      some (.str "Combined decision.") :=
  aggregate_default_verdict { features := featNoSignals } rfl (Or.inl rfl)

/-!  C4: the Aggregator's LLM path. -/

/-- C4: with no fast-stage decision and a stored vote, `aggregate` decides
`relevant` iff the vote's `relevant` field is truthy, and computes the
confidence as 0.9 minus 0.1 per true policy flag, floored at 0.5, plus 0.05
when `visited` is `yes`/`probably`, capped at 0.95 and rounded to two
decimals; a judgement with no true flags and a confirmed visit yields
confidence 0.95. -/
theorem aggregate_llm_path (s : PipeState) (vote : JsonDict)
    (hrule : s.rule_decision = none) (hvote : s.llm_vote = some vote) :
    ((aggregate s).final_decision = some Decision.relevant ↔
      (jgetD vote "relevant" (.bool false)).truthy = true) ∧
    ((aggregate s).final_decision = some Decision.relevant ∨
      (aggregate s).final_decision = some Decision.not_relevant) ∧
    (aggregate s).confidence =
      some (round2 (min (max (1/2) (9/10 - (penaltyCount vote : ℚ) / 10) +
        (if visitedConfirmed vote then 1/20 else 0)) (19/20))) ∧
    (penaltyCount vote = 0 → visitedConfirmed vote = true →
      (aggregate s).confidence = some (19/20)) := by
  obtain ⟨hfin, hconf, _⟩ := aggregate_llm_vote s hrule
  rw [hvote] at hfin hconf
  simp only [Option.getD_some] at hfin hconf
  have hform := llmConfidence_formula vote
  refine ⟨?_, ?_, ?_, ?_⟩
  · rw [hfin]
    rcases Bool.dichotomy ((jgetD vote "relevant" (JVal.bool false)).truthy) with ht | ht <;>
      simp [ht]
  · rw [hfin]
    rcases Bool.dichotomy ((jgetD vote "relevant" (JVal.bool false)).truthy) with ht | ht <;>
      simp [ht]
  · rw [hconf, hform]
  · intro hp hv
    rw [hconf, hform, hp, hv]
    norm_num [min_def, max_def, round2, roundHalfEven]

/-- C4 witness: the spec's scenario judgement (`relevant` true, all flags
false, `visited = "yes"`) yields `relevant` with confidence 0.95. -/
theorem aggregate_llm_path_witness :
    (aggregate { features := featNoSignals, llm_vote := some voteGood }).confidence =
      some (19/20) :=
  (aggregate_llm_path { features := featNoSignals, llm_vote := some voteGood }
    voteGood rfl rfl).2.2.2 rfl rfl

/-!  C9: the attainable LLM-path confidences. -/

/-- C9: the LLM-path confidence is always at least 0.6 — with only three
penalty flags the 0.5 floor can never bind and 0.5 is unreachable — and the
attainable values are exactly
{0.6, 0.65, 0.7, 0.75, 0.8, 0.85, 0.9, 0.95}. -/
theorem llm_confidence_attainable :
    (∀ vote : JsonDict,
      (3:ℚ)/5 ≤ llmConfidence vote ∧
      llmConfidence vote ≠ 1/2 ∧
      max (1/2) (9/10 - (penaltyCount vote : ℚ) / 10) =
        9/10 - (penaltyCount vote : ℚ) / 10 ∧
      llmConfidence vote ∈ CONF_VALUES) ∧
    (∀ c ∈ CONF_VALUES, ∃ vote : JsonDict, llmConfidence vote = c) := by
  constructor
  · intro vote
    have hmem := llmConfidence_mem vote
    have hb := conf_values_bounds _ hmem
    have hp := penaltyCount_le_three vote
    refine ⟨hb.1, ?_, ?_, hmem⟩
    · intro hq
      rw [hq] at hb
      norm_num at hb
    · apply max_eq_right
      have : (penaltyCount vote : ℚ) ≤ 3 := by exact_mod_cast hp
      linarith
  · intro c hc
    have e0 : llmConfidence [] = 9/10 := by
      rw [llmConfidence_formula]
      norm_num [penaltyCount, visitedConfirmed, jget, optTruthy, min_def, max_def,
        round2, roundHalfEven]
    have e0v : llmConfidence [("visited", .str "yes")] = 19/20 := by
      rw [llmConfidence_formula]
      have h1 : penaltyCount [("visited", .str "yes")] = 0 := rfl
      have h2 : visitedConfirmed [("visited", .str "yes")] = true := rfl
      rw [h1, h2]
      norm_num [min_def, max_def, round2, roundHalfEven]
    have e1 : llmConfidence [("advertisement", .bool true)] = 4/5 := by
      rw [llmConfidence_formula]
      have h1 : penaltyCount [("advertisement", JVal.bool true)] = 1 := rfl
      have h2 : visitedConfirmed [("advertisement", JVal.bool true)] = false := rfl
      rw [h1, h2]
      norm_num [min_def, max_def, round2, roundHalfEven]
    have e1v : llmConfidence
        [("advertisement", .bool true), ("visited", .str "probably")] = 17/20 := by
      rw [llmConfidence_formula]
      have h1 : penaltyCount
        [("advertisement", JVal.bool true), ("visited", JVal.str "probably")] = 1 := rfl
      have h2 : visitedConfirmed
        [("advertisement", JVal.bool true), ("visited", JVal.str "probably")] = true := rfl
      rw [h1, h2]
      norm_num [min_def, max_def, round2, roundHalfEven]
    have e2 : llmConfidence
        [("advertisement", .bool true), ("irrelevant", .bool true)] = 7/10 := by
      rw [llmConfidence_formula]
      have h1 : penaltyCount
        [("advertisement", JVal.bool true), ("irrelevant", JVal.bool true)] = 2 := rfl
      have h2 : visitedConfirmed
        [("advertisement", JVal.bool true), ("irrelevant", JVal.bool true)] = false := rfl
      rw [h1, h2]
      norm_num [min_def, max_def, round2, roundHalfEven]
    have e2v : llmConfidence
        [("advertisement", .bool true), ("irrelevant", .bool true),
         ("visited", .str "yes")] = 3/4 := by
      rw [llmConfidence_formula]
      have h1 : penaltyCount
        [("advertisement", JVal.bool true), ("irrelevant", JVal.bool true),
         ("visited", JVal.str "yes")] = 2 := rfl
      have h2 : visitedConfirmed
        [("advertisement", JVal.bool true), ("irrelevant", JVal.bool true),
         ("visited", JVal.str "yes")] = true := rfl
      rw [h1, h2]
      norm_num [min_def, max_def, round2, roundHalfEven]
    have e3 : llmConfidence
        [("advertisement", .bool true), ("irrelevant", .bool true),
         ("rant_without_visit", .bool true)] = 3/5 := by
      rw [llmConfidence_formula]
      have h1 : penaltyCount
        [("advertisement", JVal.bool true), ("irrelevant", JVal.bool true),
         ("rant_without_visit", JVal.bool true)] = 3 := rfl
      have h2 : visitedConfirmed
        [("advertisement", JVal.bool true), ("irrelevant", JVal.bool true),
         ("rant_without_visit", JVal.bool true)] = false := rfl
      rw [h1, h2]
      norm_num [min_def, max_def, round2, roundHalfEven]
    have e3v : llmConfidence
        [("advertisement", .bool true), ("irrelevant", .bool true),
         ("rant_without_visit", .bool true), ("visited", .str "yes")] = 13/20 := by
      rw [llmConfidence_formula]
      have h1 : penaltyCount
        [("advertisement", JVal.bool true), ("irrelevant", JVal.bool true),
         ("rant_without_visit", JVal.bool true), ("visited", JVal.str "yes")] = 3 := rfl
      have h2 : visitedConfirmed
        [("advertisement", JVal.bool true), ("irrelevant", JVal.bool true),
         ("rant_without_visit", JVal.bool true), ("visited", JVal.str "yes")] = true := rfl
      rw [h1, h2]
      norm_num [min_def, max_def, round2, roundHalfEven]
    fin_cases hc
    · exact ⟨_, e3⟩
    · exact ⟨_, e3v⟩
    · exact ⟨_, e2⟩
    · exact ⟨_, e2v⟩
    · exact ⟨_, e1⟩
    · exact ⟨_, e1v⟩
    · exact ⟨_, e0⟩
    · exact ⟨_, e0v⟩

/-- C9 witness: the empty vote attains 0.9 and it lies in the attainable
set. -/
theorem llm_confidence_attainable_witness :
    (3:ℚ)/5 ≤ llmConfidence [] ∧ llmConfidence [] ∈ CONF_VALUES :=
  ⟨(llm_confidence_attainable.1 []).1, (llm_confidence_attainable.1 []).2.2.2⟩

/-!  C7: the confidence range of resolved Verdicts. -/

/-- C7: every state an invocation resolves to carries a confidence in
[0.5, 0.95]; when the pipeline short-circuited (no stored LLM vote) the
confidence is exactly 0.9 for `not_relevant` and exactly 0.8 for
`relevant`; on the LLM path it stays within [0.5, 0.95]. -/
theorem verdict_confidence_range (o : InferenceOutcome) (r : Review) (s : PipeState)
    (h : run_graph o r = .ok s) :
    ∃ c : ℚ, s.confidence = some c ∧ 1/2 ≤ c ∧ c ≤ 19/20 ∧
      (s.llm_vote = none →
        (s.final_decision = some Decision.not_relevant ∧ c = 9/10) ∨
        (s.final_decision = some Decision.relevant ∧ c = 4/5)) := by
  cases hd2 : (stage2 r).rule_decision with
  | some d =>
    rw [run_graph_rule_exit o r (by rw [hd2]; rfl)] at h
    injection h with h'
    obtain ⟨hfin, hconf, hlv⟩ := aggregate_fast (stage2 r) d hd2
    refine ⟨if d = .not_relevant then 9/10 else 4/5, by rw [← h']; exact hconf, ?_, ?_, ?_⟩
    · cases d
      · rw [if_neg (by decide)]; norm_num
      · rw [if_pos rfl]; norm_num
    · cases d
      · rw [if_neg (by decide)]; norm_num
      · rw [if_pos rfl]; norm_num
    · intro _
      cases d with
      | relevant => right; exact ⟨by rw [← h']; exact hfin, by rw [if_neg (by decide)]⟩
      | not_relevant => left; exact ⟨by rw [← h']; exact hfin, by rw [if_pos rfl]⟩
  | none =>
    cases hd3 : (stage3 r).rule_decision with
    | some d =>
      rw [run_graph_heur_exit o r hd2 (by rw [hd3]; rfl)] at h
      injection h with h'
      obtain ⟨hfin, hconf, hlv⟩ := aggregate_fast (stage3 r) d hd3
      refine ⟨if d = .not_relevant then 9/10 else 4/5, by rw [← h']; exact hconf, ?_, ?_, ?_⟩
      · cases d
        · rw [if_neg (by decide)]; norm_num
        · rw [if_pos rfl]; norm_num
      · cases d
        · rw [if_neg (by decide)]; norm_num
        · rw [if_pos rfl]; norm_num
      · intro _
        cases d with
        | relevant => right; exact ⟨by rw [← h']; exact hfin, by rw [if_neg (by decide)]⟩
        | not_relevant => left; exact ⟨by rw [← h']; exact hfin, by rw [if_pos rfl]⟩
    | none =>
      rw [run_graph_llm o r hd2 hd3] at h
      cases o with
      | timeout => simp [llm_judge, Except.map] at h
      | transport => simp [llm_judge, Except.map] at h
      | content p =>
        cases p with
        | none => simp [llm_judge, Except.map] at h
        | some dict =>
          simp only [llm_judge, Except.map] at h
          injection h with h'
          obtain ⟨hfin, hconf, hlv⟩ :=
            aggregate_llm_vote { stage3 r with llm_vote := some dict } hd3
          have hb := conf_values_bounds _ (llmConfidence_mem dict)
          refine ⟨llmConfidence dict, by rw [← h']; exact hconf, by linarith [hb.1], hb.2, ?_⟩
          intro hnone
          rw [← h'] at hnone
          rw [hlv] at hnone
          cases hnone

/-- C7 witness: the ad-scenario review short-circuits and resolves with a
confidence in range. -/
theorem verdict_confidence_range_witness :
    ∃ c : ℚ, (aggregate (stage2 reviewAd)).confidence = some c ∧
      1/2 ≤ c ∧ c ≤ 19/20 ∧
      ((aggregate (stage2 reviewAd)).llm_vote = none →
        ((aggregate (stage2 reviewAd)).final_decision = some Decision.not_relevant ∧
          c = 9/10) ∨
        ((aggregate (stage2 reviewAd)).final_decision = some Decision.relevant ∧
          c = 4/5)) :=
  verdict_confidence_range .timeout reviewAd (aggregate (stage2 reviewAd))
    (run_graph_rule_exit .timeout reviewAd (by decide))

/-!  C1: stage order, short-circuiting, decision origin. -/

/-- C1: the compiled graph runs extract → rule → heuristic → LLM →
aggregate with short-circuiting: the judge is consulted iff both fast
stages stayed undetermined (on an early exit the run does not depend on the
judge at all and the resulting state has no LLM vote — none is fabricated);
exactly one stage determines `final_decision`: the Rule Stage's decision,
else the Heuristic Stage's, else the judge's `relevant` field. -/
theorem pipeline_short_circuit (r : Review) (o o' : InferenceOutcome) (d : JsonDict) :
    ((stage2 r).rule_decision.isSome = true ∨ (stage3 r).rule_decision.isSome = true →
      run_graph o r = run_graph o' r ∧
      ∃ s, run_graph o r = .ok s ∧ s.llm_vote = none) ∧
    ((stage2 r).rule_decision = none → (stage3 r).rule_decision = none →
      run_graph InferenceOutcome.timeout r = .error JudgeError.timeout ∧
      run_graph (InferenceOutcome.content (some d)) r =
        .ok (aggregate { stage3 r with llm_vote := some d })) ∧
    (∀ dec, (stage2 r).rule_decision = some dec →
      run_graph o r = .ok (aggregate (stage2 r)) ∧
      (aggregate (stage2 r)).final_decision = some dec) ∧
    ((stage2 r).rule_decision = none → ∀ dec, (stage3 r).rule_decision = some dec →
      run_graph o r = .ok (aggregate (stage3 r)) ∧
      (aggregate (stage3 r)).final_decision = some dec) ∧
    ((stage2 r).rule_decision = none → (stage3 r).rule_decision = none →
      (aggregate { stage3 r with llm_vote := some d }).final_decision =
        some (if (jgetD d "relevant" (.bool false)).truthy then Decision.relevant
              else Decision.not_relevant)) := by
  refine ⟨?_, ?_, ?_, ?_, ?_⟩
  · intro hfired
    cases hd2 : (stage2 r).rule_decision with
    | some dec =>
      rw [run_graph_rule_exit o r (by rw [hd2]; rfl),
        run_graph_rule_exit o' r (by rw [hd2]; rfl)]
      refine ⟨rfl, aggregate (stage2 r), rfl, ?_⟩
      rw [(aggregate_fast (stage2 r) dec hd2).2.2, stage2_llm_vote_none]
    | none =>
      have hd3 : (stage3 r).rule_decision.isSome = true := by
        rcases hfired with h | h
        · rw [hd2] at h; cases h
        · exact h
      rw [run_graph_heur_exit o r hd2 hd3, run_graph_heur_exit o' r hd2 hd3]
      obtain ⟨dec, hdec⟩ := Option.isSome_iff_exists.mp hd3
      refine ⟨rfl, aggregate (stage3 r), rfl, ?_⟩
      rw [(aggregate_fast (stage3 r) dec hdec).2.2, stage3_llm_vote_none]
  · intro h2 h3
    rw [run_graph_llm .timeout r h2 h3, run_graph_llm (.content (some d)) r h2 h3]
    exact ⟨rfl, rfl⟩
  · intro dec hdec
    exact ⟨run_graph_rule_exit o r (by rw [hdec]; rfl),
      (aggregate_fast (stage2 r) dec hdec).1⟩
  · intro h2 dec hdec
    exact ⟨run_graph_heur_exit o r h2 (by rw [hdec]; rfl),
      (aggregate_fast (stage3 r) dec hdec).1⟩
  · intro h2 h3
    exact (aggregate_llm_vote { stage3 r with llm_vote := some d } h3).1

/-- C1 witness: a no-signal review reaches the judge (a timeout propagates),
and the ad review short-circuits with no vote stored. -/
theorem pipeline_short_circuit_witness :
    run_graph InferenceOutcome.timeout reviewPlain = .error JudgeError.timeout ∧
    (∃ s, run_graph InferenceOutcome.timeout reviewAd = .ok s ∧ s.llm_vote = none) :=
  ⟨((pipeline_short_circuit reviewPlain .timeout .timeout []).2.1
      (by decide) (by decide)).1,
   ((pipeline_short_circuit reviewAd .timeout .transport []).1 (Or.inl (by decide))).2⟩

/-!  C5: judge failure semantics. -/

theorem llmConfidence_nil : llmConfidence [] = 9/10 := by
  rw [llmConfidence_formula]
  norm_num [penaltyCount, visitedConfirmed, jget, optTruthy, min_def, max_def,
    round2, roundHalfEven]

/-- C5 counterexample: content that is valid JSON but violates the
`PolicyJudgement` schema (an empty object) is NOT rejected — `llm_judge`
only runs `json.loads`, so it stores the dict as the vote, the pipeline
completes, and a Verdict (default `not_relevant`, confidence 0.9) is
returned instead of a schema-violation error. -/
theorem judge_schema_counterexample :
    schemaValid [] = false ∧
    llm_judge (.content (some [])) (stage3 reviewPlain) =
      .ok { stage3 reviewPlain with llm_vote := some [] } ∧
    run_graph (.content (some [])) reviewPlain =
      .ok (aggregate { stage3 reviewPlain with llm_vote := some [] }) ∧
    (aggregate { stage3 reviewPlain with llm_vote := some [] }).final_decision =
      some Decision.not_relevant ∧
    (aggregate { stage3 reviewPlain with llm_vote := some [] }).confidence =
      some (9/10) := by
  have h3 : (stage3 reviewPlain).rule_decision = none := by decide
  refine ⟨rfl, rfl, ?_, ?_, ?_⟩
  · rw [run_graph_llm _ _ (by decide) h3]
    rfl
  · have := (aggregate_llm_vote { stage3 reviewPlain with llm_vote := some [] } h3).1
    rw [this]
    decide
  · have := (aggregate_llm_vote { stage3 reviewPlain with llm_vote := some [] } h3).2.1
    rw [this]
    simp only [Option.getD_some]
    rw [llmConfidence_nil]

/-- C5 (amended): a timeout, a transport error, and content that fails to
parse as JSON each escape `llm_judge` as a distinct error and abort the
invocation with that error — no Verdict and no default vote is produced on
those failures; but content that parses as JSON is accepted without any
schema validation. -/
theorem judge_failure_propagation (r : Review) (s : PipeState) (d : JsonDict)
    (h2 : (stage2 r).rule_decision = none) (h3 : (stage3 r).rule_decision = none) :
    (llm_judge .timeout s = .error .timeout ∧
     llm_judge .transport s = .error .transport ∧
     llm_judge (.content none) s = .error .jsonDecode ∧
     ∀ e, llm_judge (.content (some d)) s ≠ .error e) ∧
    (run_graph .timeout r = .error .timeout ∧
     run_graph .transport r = .error .transport ∧
     run_graph (.content none) r = .error .jsonDecode) := by
  constructor
  · exact ⟨rfl, rfl, rfl, fun e h => by cases h⟩
  · rw [run_graph_llm .timeout r h2 h3, run_graph_llm .transport r h2 h3,
      run_graph_llm (.content none) r h2 h3]
    exact ⟨rfl, rfl, rfl⟩

/-- C5 witness: on the no-signal review each failure kind aborts the run. -/
theorem judge_failure_propagation_witness :
    run_graph .timeout reviewPlain = .error .timeout ∧
    run_graph .transport reviewPlain = .error .transport ∧
    run_graph (.content none) reviewPlain = .error .jsonDecode :=
  (judge_failure_propagation reviewPlain { features := featNoSignals } []
    (by decide) (by decide)).2

/-!  C6: the Feature Extractor never fails. -/

/-- C6: `extract_features` is a total function of the Review Record (its
type in this embedding: every review yields a complete Feature Bundle), and
the degradations are as specified: an absent/null text behaves as the empty
string (no text signals), an absent or non-numeric (invalid) timestamp
leaves `date_iso` absent, and absent/null pics yield no photo evidence. -/
theorem extractor_degrades_gracefully (r : Review) (v : JVal) :
    (r.text = none →
      (extract_features r).text_len = 0 ∧ (extract_features r).has_url = false ∧
      (extract_features r).url_count = 0 ∧
      (extract_features r).promo_keywords_found = [] ∧
      (extract_features r).irrelevant_hints_found = [] ∧
      (extract_features r).visit_markers_count = 0) ∧
    (r.time = none → (extract_features r).date_iso = none) ∧
    (r.time = some v → numVal v = none → (extract_features r).date_iso = none) ∧
    (r.pics = none →
      (extract_features r).has_pics = false ∧
      (extract_features r).pics_count = 0) := by
  obtain ⟨t, ra, ti, pi⟩ := r
  refine ⟨?_, ?_, ?_, ?_⟩
  · intro h
    dsimp only at h
    subst h
    refine ⟨?_, ?_, ?_, ?_, ?_, ?_⟩
    · exact (by decide : (pyStrip "").length = 0)
    · exact (by decide : urlSearch (pyStrip "") = false)
    · exact (by decide : countUrls (pyStrip "") = 0)
    · exact (by decide : PROMO_TERMS.filter (fun t => wbSearch t (pyStrip "")) = [])
    · exact (by decide : IRRELEVANT_HINTS.filter (fun t => wbSearch t (pyStrip "")) = [])
    · exact (by decide : count_matches VISIT_PATTERNS (" " ++ pyStrip "" ++ " ") = 0)
  · intro h
    dsimp only at h
    subst h
    rfl
  · intro h hv
    dsimp only at h
    subst h
    show ms_to_date (some v) = none
    simp [ms_to_date, hv]
  · intro h
    dsimp only at h
    subst h
    exact ⟨rfl, rfl⟩

/-- C6 witness: an entirely empty review record and one with a string
timestamp both extract cleanly. -/
theorem extractor_degrades_gracefully_witness :
    (extract_features ({} : Review)).text_len = 0 ∧
    (extract_features ({} : Review)).date_iso = none ∧
    (extract_features { time := some (.str "not a timestamp") }).date_iso = none ∧
    (extract_features ({} : Review)).has_pics = false :=
  ⟨((extractor_degrades_gracefully {} JVal.null).1 rfl).1,
   (extractor_degrades_gracefully {} JVal.null).2.1 rfl,
   (extractor_degrades_gracefully { time := some (.str "not a timestamp") }
     (JVal.str "not a timestamp")).2.2.1 rfl rfl,
   ((extractor_degrades_gracefully {} JVal.null).2.2.2 rfl).1⟩

/-!  C8: matching is case-insensitive and whole-word.  First, character
facts about ASCII case folding. -/

theorem uint32_le_toNat (a b : UInt32) : (a ≤ b) ↔ (a.toNat ≤ b.toNat) := by
  rw [UInt32.le_def, BitVec.le_def]
  rfl

theorem char_beq_toNat (c d : Char) : (c == d) = (c.toNat == d.toNat) := by
  cases h : c == d with
  | true =>
    simp at h
    simp [h]
  | false =>
    simp at h
    cases hn : c.toNat == d.toNat with
    | false => rfl
    | true =>
      exfalso
      apply h
      apply Char.ext
      apply UInt32.ext
      simpa using hn

theorem isWordChar_ranges (c : Char) : isWordChar c =
    ((65 ≤ c.toNat && c.toNat ≤ 90) || (97 ≤ c.toNat && c.toNat ≤ 122) ||
     (48 ≤ c.toNat && c.toNat ≤ 57) || c.toNat == 95) := by
  simp only [isWordChar, Char.isAlphanum, Char.isAlpha, Char.isUpper, Char.isLower,
    Char.isDigit, char_beq_toNat, ge_iff_le, uint32_le_toNat]
  rfl

theorem toNat_ofNat_valid {n : Nat} (h : n.isValidChar) : (Char.ofNat n).toNat = n := by
  unfold Char.ofNat
  rw [dif_pos h]
  rfl

theorem toLower_eq (c : Char) :
    c.toLower = if 65 ≤ c.toNat ∧ c.toNat ≤ 90 then Char.ofNat (c.toNat + 32) else c := rfl

theorem toUpper_eq (c : Char) :
    c.toUpper = if 97 ≤ c.toNat ∧ c.toNat ≤ 122 then Char.ofNat (c.toNat - 32) else c := rfl

theorem toLower_toUpper (c : Char) : c.toUpper.toLower = c.toLower := by
  by_cases h : 97 ≤ c.toNat ∧ c.toNat ≤ 122
  · have hv : (c.toNat - 32).isValidChar := Or.inl (by omega)
    have ht : (Char.ofNat (c.toNat - 32)).toNat = c.toNat - 32 := toNat_ofNat_valid hv
    rw [toUpper_eq, if_pos h, toLower_eq, ht, if_pos (by omega), toLower_eq,
      if_neg (by omega)]
    have heq : c.toNat - 32 + 32 = c.toNat := by omega
    rw [heq, Char.ofNat_toNat]
  · rw [toUpper_eq, if_neg h]

theorem toLower_toLower (c : Char) : c.toLower.toLower = c.toLower := by
  by_cases h : 65 ≤ c.toNat ∧ c.toNat ≤ 90
  · have hv : (c.toNat + 32).isValidChar := Or.inl (by omega)
    have ht : (Char.ofNat (c.toNat + 32)).toNat = c.toNat + 32 := toNat_ofNat_valid hv
    rw [toLower_eq c, if_pos h, toLower_eq, ht, if_neg (by omega)]
  · rw [toLower_eq c, if_neg h, toLower_eq c, if_neg h]

theorem isWordChar_toUpper (c : Char) : isWordChar c.toUpper = isWordChar c := by
  by_cases h : 97 ≤ c.toNat ∧ c.toNat ≤ 122
  · have hv : (c.toNat - 32).isValidChar := Or.inl (by omega)
    have ht : (Char.ofNat (c.toNat - 32)).toNat = c.toNat - 32 := toNat_ofNat_valid hv
    rw [toUpper_eq, if_pos h, isWordChar_ranges, isWordChar_ranges, ht, Bool.eq_iff_iff]
    simp only [Bool.or_eq_true, Bool.and_eq_true, decide_eq_true_eq, beq_iff_eq]
    omega
  · rw [toUpper_eq, if_neg h]

theorem isWordChar_toLower (c : Char) : isWordChar c.toLower = isWordChar c := by
  by_cases h : 65 ≤ c.toNat ∧ c.toNat ≤ 90
  · have hv : (c.toNat + 32).isValidChar := Or.inl (by omega)
    have ht : (Char.ofNat (c.toNat + 32)).toNat = c.toNat + 32 := toNat_ofNat_valid hv
    rw [toLower_eq c, if_pos h, isWordChar_ranges, isWordChar_ranges, ht, Bool.eq_iff_iff]
    simp only [Bool.or_eq_true, Bool.and_eq_true, decide_eq_true_eq, beq_iff_eq]
    omega
  · rw [toLower_eq c, if_neg h]

/-!  Lifting the character facts to the searcher. -/

/-- A positional match is invariant under any character map that preserves
lower-case folding and word-character-ness (such as ASCII upper/lower). -/
theorem wbMatchAt_map (f : Char → Char)
    (hlc : ∀ c, (f c).toLower = c.toLower)
    (hw : ∀ c, isWordChar (f c) = isWordChar c)
    (pat td : List Char) (i : Nat) :
    wbMatchAt pat (td.map f) i = wbMatchAt pat td i := by
  have hmaplc : ∀ l : List Char, (l.map f).map Char.toLower = l.map Char.toLower := by
    intro l
    induction l with
    | nil => rfl
    | cons c l ih => simp [ih, hlc]
  have hoptw : ∀ o : Option Char, optIsWord (o.map f) = optIsWord o := by
    intro o
    cases o with
    | none => rfl
    | some c => simp [optIsWord, hw]
  have hbdry : ∀ a b : Option Char, isBoundary (a.map f) (b.map f) = isBoundary a b := by
    intro a b
    unfold isBoundary
    rw [hoptw, hoptw]
  unfold wbMatchAt
  dsimp only
  rw [← List.map_take, ← List.map_drop, ← List.map_take, ← List.map_drop,
    List.length_map, List.getLast?_map, List.getLast?_map, List.head?_map, List.head?_map,
    hbdry, hbdry]
  have : lcEq ((((td.drop i).take pat.length)).map f) pat =
      lcEq ((td.drop i).take pat.length) pat := by
    unfold lcEq
    rw [hmaplc]
  rw [this]

theorem wbSearch_upperStr (term text : String) :
    wbSearch term (upperStr text) = wbSearch term text := by
  unfold wbSearch upperStr
  show (List.range ((text.data.map Char.toUpper).length + 1)).any
      (wbMatchAt term.data (text.data.map Char.toUpper)) = _
  rw [List.length_map]
  have hfun : wbMatchAt term.data (text.data.map Char.toUpper) =
      wbMatchAt term.data text.data :=
    funext (fun i => wbMatchAt_map Char.toUpper toLower_toUpper isWordChar_toUpper
      term.data text.data i)
  rw [hfun]

theorem wbSearch_lowerStr (term text : String) :
    wbSearch term (lowerStr text) = wbSearch term text := by
  unfold wbSearch lowerStr
  show (List.range ((text.data.map Char.toLower).length + 1)).any
      (wbMatchAt term.data (text.data.map Char.toLower)) = _
  rw [List.length_map]
  have hfun : wbMatchAt term.data (text.data.map Char.toLower) =
      wbMatchAt term.data text.data :=
    funext (fun i => wbMatchAt_map Char.toLower toLower_toLower isWordChar_toLower
      term.data text.data i)
  rw [hfun]

/-- The executable searcher agrees with the declarative "occurs as a whole
word/phrase" specification. -/
theorem wbSearch_iff_wholeWord (term text : String) :
    wbSearch term text = true ↔ WholeWordOccurrence term text := by
  unfold wbSearch WholeWordOccurrence
  rw [List.any_eq_true]
  constructor
  · rintro ⟨i, _, hmat⟩
    unfold wbMatchAt at hmat
    dsimp only at hmat
    simp only [lcEq, Bool.and_eq_true, beq_iff_eq] at hmat
    obtain ⟨⟨⟨hlen, hlc⟩, hb1⟩, hb2⟩ := hmat
    refine ⟨text.data.take i, (text.data.drop i).take term.data.length,
      (text.data.drop i).drop term.data.length, ?_, hlc, hb1, hb2⟩
    rw [List.append_assoc, List.take_append_drop, List.take_append_drop]
  · rintro ⟨pre, mid, post, hsplit, hlc, hb1, hb2⟩
    have hmidlen : mid.length = term.data.length := by
      have := congrArg List.length hlc
      simpa using this
    refine ⟨pre.length, ?_, ?_⟩
    · rw [List.mem_range, hsplit]
      simp only [List.length_append]
      omega
    · have htake : text.data.take pre.length = pre := by
        rw [hsplit, List.append_assoc, List.take_left]
      have hdrop : text.data.drop pre.length = mid ++ post := by
        rw [hsplit, List.append_assoc, List.drop_left]
      unfold wbMatchAt
      dsimp only
      rw [htake, hdrop, ← hmidlen, List.take_left, List.drop_left]
      simp only [lcEq, Bool.and_eq_true, beq_iff_eq]
      exact ⟨⟨⟨trivial, hlc⟩, hb1⟩, hb2⟩

/-- C8: matching of the term families is case-insensitive (upper- or
lower-casing the text changes no per-term hit and no `count_matches`
result) and matches only whole words/phrases (the searcher succeeds exactly
when the term occurs between word boundaries); in particular "call now"
does not match inside "recall nowhere" and no promotional term fires on
that text. -/
theorem matching_whole_word_case_insensitive :
    (∀ term text : String, wbSearch term text = true ↔ WholeWordOccurrence term text) ∧
    (∀ (terms : List String) (text : String),
      terms.filter (fun t => wbSearch t (upperStr text)) =
        terms.filter (fun t => wbSearch t text) ∧
      terms.filter (fun t => wbSearch t (lowerStr text)) =
        terms.filter (fun t => wbSearch t text) ∧
      count_matches terms (upperStr text) = count_matches terms text ∧
      count_matches terms (lowerStr text) = count_matches terms text) ∧
    wbSearch "call now" "recall nowhere" = false ∧
    PROMO_TERMS.filter (fun t => wbSearch t "recall nowhere") = [] := by
  refine ⟨wbSearch_iff_wholeWord, ?_, by decide, by decide⟩
  intro terms text
  have hu : ∀ t ∈ terms, wbSearch t (upperStr text) = wbSearch t text := by
    intro t _
    exact wbSearch_upperStr t text
  have hl : ∀ t ∈ terms, wbSearch t (lowerStr text) = wbSearch t text := by
    intro t _
    exact wbSearch_lowerStr t text
  refine ⟨List.filter_congr hu, List.filter_congr hl, ?_, ?_⟩
  · unfold count_matches
    rw [List.filter_congr hu]
  · unfold count_matches
    rw [List.filter_congr hl]

/-- C8 witness: the searcher, applied per the equivalence, certifies a
whole-phrase occurrence in differently-cased text. -/
theorem matching_whole_word_case_insensitive_witness :
    WholeWordOccurrence "call now" "Please CALL NOW today" :=
  (matching_whole_word_case_insensitive.1 "call now" "Please CALL NOW today").mp
    (by decide)
